import Mathlib

/-!
# Verification of the Employees-Dashboard job-tracking core

A shallow embedding of the job-search tracking backend: three record
types (`JobSite`, `JobApplication`, `ApplicationTimeline` from
`models.py`), the aggregation queries and state transitions of
`views.py`, and the serializers of `serializers.py`.  The record store
is modelled as explicit lists of records; Django querysets become list
filters, `save()` becomes a pointwise map over the store, timestamps
(`auto_now` / `auto_now_add`) become explicit `Nat` clock arguments.
Operations that can fail (object lookup by primary key, foreign-key
validation on create) return `Except ApiError`; an error result carries
no new store, so a failed operation leaves the record set unchanged by
construction.
-/

namespace JobTracker

/-- `JobSite` from `models.py`: a job board / opportunity platform.
Enumerated choice fields (`site_type`, `country`, `language`,
`work_area`) are kept as strings, as they are stored. -/
structure JobSite where
  id : Nat
  name : String
  url : String
  site_type : String
  country : String
  language : String
  work_area : String
  description : String
  is_completed : Bool
  visited : Bool
  created_at : Nat
  updated_at : Nat
deriving Repr, DecidableEq

/-- `JobApplication` from `models.py`: a submitted application, with a
foreign key `job_site` (held as the referenced site id,
`on_delete=CASCADE`). -/
structure JobApplication where
  id : Nat
  job_site : Nat
  position : String
  company : String
  job_url : String
  description : String
  salary_range : String
  status : String
  applied_date : Nat
  notes : String
  is_archived : Bool
deriving Repr, DecidableEq

/-- `ApplicationTimeline` from `models.py`: a dated event owned by one
application (`application` holds the referenced application id,
`on_delete=CASCADE`). -/
structure ApplicationTimeline where
  id : Nat
  application : Nat
  event_type : String
  title : String
  description : String
  date : Nat
deriving Repr, DecidableEq

/-- The record store: the three Django tables as lists of records. -/
structure Database where
  sites : List JobSite
  applications : List JobApplication
  timeline_events : List ApplicationTimeline
deriving Repr, DecidableEq

/-- Errors surfaced by lookups and foreign-key validation. -/
inductive ApiError where
  | notFound
deriving Repr, DecidableEq

/-! ## Aggregation queries (`views.py`) -/

/-- Result shape of `JobSiteViewSet.dashboard_stats`. -/
structure DashboardStats where
  total_sites : Nat
  visited_sites : Nat
  completed_sites : Nat
  pending_sites : Nat
deriving Repr, DecidableEq

/-- `JobSiteViewSet.dashboard_stats` (`views.py` lines 29-50):
total count, `visited=True` count, `is_completed=True` count, and
`pending = total - visited`. -/
def dashboard_stats (db : Database) : DashboardStats :=
  let total_sites := db.sites.length
  let visited_sites := (db.sites.filter (fun s => s.visited)).length
  let completed_sites := (db.sites.filter (fun s => s.is_completed)).length
  { total_sites := total_sites
    visited_sites := visited_sites
    completed_sites := completed_sites
    pending_sites := total_sites - visited_sites }

/-- One row of the `by_status` group-by tally. -/
structure StatusCount where
  status : String
  count : Nat
deriving Repr, DecidableEq

/-- Result shape of `JobApplicationViewSet.stats`. -/
structure ApplicationStats where
  total_applications : Nat
  by_status : List StatusCount
  archived : Nat
deriving Repr, DecidableEq

/-- `JobApplicationViewSet.stats` (`views.py` lines 146-165): total
count, the SQL `GROUP BY status` tally
(`values('status').annotate(count=Count('status'))` — one row per
status value occurring in the table, with its multiplicity), and the
`is_archived=True` count. -/
def application_stats (db : Database) : ApplicationStats :=
  { total_applications := db.applications.length
    by_status :=
      ((db.applications.map (fun a => a.status)).dedup).map
        (fun st =>
          { status := st
            count := (db.applications.filter (fun a => a.status == st)).length })
    archived := (db.applications.filter (fun a => a.is_archived)).length }

/-! ## Helper lemmas -/

theorem length_filter_not {α : Type} (p : α → Bool) (l : List α) :
    (l.filter (fun a => !(p a))).length = l.length - (l.filter p).length := by
  induction l with
  | nil => rfl
  | cons a t ih =>
    have hle := List.length_filter_le p t
    by_cases h : p a
    · rw [List.filter_cons_of_neg (by simp [h]), List.filter_cons_of_pos h, ih]
      simp
    · rw [List.filter_cons_of_pos (by simp [h]), List.filter_cons_of_neg (by simp [h])]
      simp only [List.length_cons, ih]
      omega

theorem length_filter_status_eq_count (apps : List JobApplication) (st : String) :
    (apps.filter (fun a => a.status == st)).length
      = (apps.map (fun a => a.status)).count st := by
  induction apps with
  | nil => rfl
  | cons a t ih =>
    simp only [List.filter_cons, List.map_cons, List.count_cons]
    by_cases h : a.status = st
    · simp [h, ih]
    · simp [h, ih]

/-! ## C1 and C2 -/

/-- C1: `dashboard_stats` returns `pending_sites` equal both to the
number of sites with `visited = false` and to
`total_sites - visited_sites`, for every state of the record set —
independent of the `is_completed` flag (which appears nowhere in the
statement), hence also when `completed_sites` exceeds `visited_sites`. -/
theorem dashboard_stats_pending_correct (db : Database) :
    (dashboard_stats db).pending_sites
        = (db.sites.filter (fun s => !s.visited)).length
      ∧ (dashboard_stats db).pending_sites
        = (dashboard_stats db).total_sites - (dashboard_stats db).visited_sites := by
  constructor
  · simp only [dashboard_stats]
    rw [length_filter_not (fun s => s.visited) db.sites]
  · rfl

/-- C2: every row of `application_stats db |>.by_status` has a positive
count and a status actually held by some application; every status held
by some application has a row; the rows have pairwise distinct
statuses; and the counts sum to `total_applications`. -/
theorem application_stats_by_status_correct (db : Database) :
    (∀ e ∈ (application_stats db).by_status,
        0 < e.count ∧ ∃ a ∈ db.applications, a.status = e.status)
      ∧ (∀ a ∈ db.applications,
          ∃ e ∈ (application_stats db).by_status, e.status = a.status)
      ∧ ((application_stats db).by_status.map (fun e => e.status)).Nodup
      ∧ ((application_stats db).by_status.map (fun e => e.count)).sum
          = (application_stats db).total_applications := by
  refine ⟨?_, ?_, ?_, ?_⟩
  · intro e he
    simp only [application_stats, List.mem_map, List.mem_dedup] at he
    obtain ⟨st, hst, rfl⟩ := he
    obtain ⟨a, ha, hsa⟩ := hst
    refine ⟨?_, a, ha, hsa⟩
    have : a ∈ db.applications.filter (fun x => x.status == st) := by
      rw [List.mem_filter]
      exact ⟨ha, by simpa using hsa⟩
    calc 0 < (db.applications.filter (fun x => x.status == st)).length :=
          List.length_pos.mpr (List.ne_nil_of_mem this)
      _ = _ := rfl
  · intro a ha
    refine ⟨⟨a.status,
      (db.applications.filter (fun x => x.status == a.status)).length⟩, ?_, rfl⟩
    simp only [application_stats, List.mem_map, List.mem_dedup]
    exact ⟨a.status, ⟨a, ha, rfl⟩, rfl⟩
  · simp only [application_stats, List.map_map]
    have : ((fun e : StatusCount => e.status) ∘ fun st =>
        ({ status := st
           count := (db.applications.filter (fun a => a.status == st)).length }
          : StatusCount)) = id := rfl
    rw [this, List.map_id]
    exact (db.applications.map (fun a => a.status)).nodup_dedup
  · have hcong : ((db.applications.map (fun a => a.status)).dedup.map
          (fun st => (db.applications.filter (fun a => a.status == st)).length))
        = ((db.applications.map (fun a => a.status)).dedup.map
          (fun st => (db.applications.map (fun a => a.status)).count st)) := by
      apply List.map_congr_left
      intro st _
      exact length_filter_status_eq_count db.applications st
    have hmm : (application_stats db).by_status.map (fun e => e.count)
        = ((db.applications.map (fun a => a.status)).dedup.map
          (fun st => (db.applications.filter (fun a => a.status == st)).length)) := by
      simp [application_stats, List.map_map, Function.comp_def]
    rw [hmm, hcong, List.sum_map_count_dedup_eq_length, List.length_map]
    rfl

/-! ## Cascade delete (`models.py`: `on_delete=CASCADE` on both foreign keys) -/

/-- Deleting a `JobSite` by id: the site is removed, the cascade
removes every `JobApplication` whose `job_site` references it
(`models.py` line 122) and every `ApplicationTimeline` whose
`application` references one of those applications (`models.py`
line 170). -/
def delete_site (db : Database) (sid : Nat) : Database :=
  { sites := db.sites.filter (fun s => s.id != sid)
    applications := db.applications.filter (fun a => a.job_site != sid)
    timeline_events := db.timeline_events.filter (fun t =>
      !(db.applications.any (fun a => a.id == t.application && a.job_site == sid))) }

/-- C3: cascade closure of site deletion.  A record survives
`delete_site db sid` exactly when it was present before and is neither
the deleted site, nor an application referencing it, nor a timeline
event referencing such an application; in particular no other record is
removed. -/
theorem delete_site_cascade_closure (db : Database) (sid : Nat) :
    (∀ s : JobSite, s ∈ (delete_site db sid).sites ↔ s ∈ db.sites ∧ s.id ≠ sid)
      ∧ (∀ a : JobApplication,
          a ∈ (delete_site db sid).applications ↔
            a ∈ db.applications ∧ a.job_site ≠ sid)
      ∧ (∀ t : ApplicationTimeline,
          t ∈ (delete_site db sid).timeline_events ↔
            t ∈ db.timeline_events ∧
              ¬ ∃ a ∈ db.applications, a.id = t.application ∧ a.job_site = sid) := by
  refine ⟨fun s => ?_, fun a => ?_, fun t => ?_⟩
  · simp [delete_site, List.mem_filter]
  · simp [delete_site, List.mem_filter]
  · simp [delete_site, List.mem_filter, List.any_eq_true]

/-! ## Transition operations (`views.py`) -/

/-- `JobSiteViewSet.mark_visited` (`views.py` lines 52-67):
`get_object()` on the pk — a 404 lookup failure when no such site
exists — then `visited = True` and `save()`.  Saving also refreshes the
`auto_now` field `updated_at`, modelled by the explicit clock `now`.
An error result carries no store, so a failed call leaves every record
unchanged. -/
def mark_visited (db : Database) (pk now : Nat) :
    Except ApiError (Database × String) :=
  if db.sites.any (fun s => s.id == pk) then
    .ok ({ db with sites := db.sites.map (fun s =>
        if s.id == pk then { s with visited := true, updated_at := now } else s) },
      "marked as visited")
  else .error .notFound

/-- `JobSiteViewSet.mark_completed` (`views.py` lines 69-84): same
shape, setting `is_completed = True`. -/
def mark_completed (db : Database) (pk now : Nat) :
    Except ApiError (Database × String) :=
  if db.sites.any (fun s => s.id == pk) then
    .ok ({ db with sites := db.sites.map (fun s =>
        if s.id == pk then { s with is_completed := true, updated_at := now } else s) },
      "marked as completed")
  else .error .notFound

/-- `JobApplicationViewSet.archive` (`views.py` lines 112-127):
lookup, `is_archived = True`, `save()`.  `JobApplication` has no
`updated_at` field, so no timestamp is refreshed. -/
def archive_application (db : Database) (pk : Nat) :
    Except ApiError (Database × String) :=
  if db.applications.any (fun a => a.id == pk) then
    .ok ({ db with applications := db.applications.map (fun a =>
        if a.id == pk then { a with is_archived := true } else a) }, "archived")
  else .error .notFound

/-- `JobApplicationViewSet.unarchive` (`views.py` lines 129-144):
lookup, `is_archived = False`, `save()`. -/
def unarchive_application (db : Database) (pk : Nat) :
    Except ApiError (Database × String) :=
  if db.applications.any (fun a => a.id == pk) then
    .ok ({ db with applications := db.applications.map (fun a =>
        if a.id == pk then { a with is_archived := false } else a) }, "unarchived")
  else .error .notFound

/-- Frame relation for `mark_visited`: a site other than the target is
untouched; the target keeps every domain field, gets `visited = true`,
and has `updated_at` refreshed to `now`. -/
def visitedFrame (pk now : Nat) (s s' : JobSite) : Prop :=
  (s.id ≠ pk → s' = s) ∧
  (s.id = pk →
    s'.id = s.id ∧ s'.name = s.name ∧ s'.url = s.url ∧ s'.site_type = s.site_type ∧
    s'.country = s.country ∧ s'.language = s.language ∧ s'.work_area = s.work_area ∧
    s'.description = s.description ∧ s'.is_completed = s.is_completed ∧
    s'.visited = true ∧ s'.created_at = s.created_at ∧ s'.updated_at = now)

/-- Frame relation for `mark_completed`: only `is_completed` (and the
`auto_now` timestamp) of the target change. -/
def completedFrame (pk now : Nat) (s s' : JobSite) : Prop :=
  (s.id ≠ pk → s' = s) ∧
  (s.id = pk →
    s'.id = s.id ∧ s'.name = s.name ∧ s'.url = s.url ∧ s'.site_type = s.site_type ∧
    s'.country = s.country ∧ s'.language = s.language ∧ s'.work_area = s.work_area ∧
    s'.description = s.description ∧ s'.is_completed = true ∧
    s'.visited = s.visited ∧ s'.created_at = s.created_at ∧ s'.updated_at = now)

/-- Frame relation for `archive` / `unarchive`: only `is_archived` of
the target changes (to `b`); in particular `status` is untouched. -/
def archiveFrame (pk : Nat) (b : Bool) (a a' : JobApplication) : Prop :=
  (a.id ≠ pk → a' = a) ∧
  (a.id = pk →
    a'.id = a.id ∧ a'.job_site = a.job_site ∧ a'.position = a.position ∧
    a'.company = a.company ∧ a'.job_url = a.job_url ∧ a'.description = a.description ∧
    a'.salary_range = a.salary_range ∧ a'.status = a.status ∧
    a'.applied_date = a.applied_date ∧ a'.notes = a.notes ∧ a'.is_archived = b)

theorem any_id_eq_true_of_site {db : Database} {pk : Nat}
    (hs : ∃ s ∈ db.sites, s.id = pk) :
    db.sites.any (fun s => s.id == pk) = true := by
  rw [List.any_eq_true]
  obtain ⟨s, hmem, hid⟩ := hs
  exact ⟨s, hmem, by simpa using hid⟩

theorem any_id_eq_true_of_app {db : Database} {pk : Nat}
    (ha : ∃ a ∈ db.applications, a.id = pk) :
    db.applications.any (fun a => a.id == pk) = true := by
  rw [List.any_eq_true]
  obtain ⟨a, hmem, hid⟩ := ha
  exact ⟨a, hmem, by simpa using hid⟩

/-- C7: each of the four transitions succeeds on an existing target,
returns its fixed acknowledgement, leaves the two unrelated tables
unchanged, and relates the mutated table pointwise to the old one by
the frame relation: only the targeted record changes, and only in the
one designated field (plus `updated_at` where the record has it);
in particular `archive` leaves `status` unchanged. -/
theorem transitions_frame (db : Database) (spk apk now : Nat)
    (hs : ∃ s ∈ db.sites, s.id = spk) (ha : ∃ a ∈ db.applications, a.id = apk) :
    (∃ db1, mark_visited db spk now = .ok (db1, "marked as visited") ∧
      db1.applications = db.applications ∧ db1.timeline_events = db.timeline_events ∧
      List.Forall₂ (visitedFrame spk now) db.sites db1.sites)
    ∧ (∃ db2, mark_completed db spk now = .ok (db2, "marked as completed") ∧
      db2.applications = db.applications ∧ db2.timeline_events = db.timeline_events ∧
      List.Forall₂ (completedFrame spk now) db.sites db2.sites)
    ∧ (∃ db3, archive_application db apk = .ok (db3, "archived") ∧
      db3.sites = db.sites ∧ db3.timeline_events = db.timeline_events ∧
      List.Forall₂ (archiveFrame apk true) db.applications db3.applications)
    ∧ (∃ db4, unarchive_application db apk = .ok (db4, "unarchived") ∧
      db4.sites = db.sites ∧ db4.timeline_events = db.timeline_events ∧
      List.Forall₂ (archiveFrame apk false) db.applications db4.applications) := by
  refine ⟨?_, ?_, ?_, ?_⟩
  · refine ⟨{ db with sites := db.sites.map (fun s =>
        if s.id == spk then { s with visited := true, updated_at := now } else s) },
      by rw [mark_visited, if_pos (any_id_eq_true_of_site hs)], rfl, rfl, ?_⟩
    rw [List.forall₂_map_right_iff, List.forall₂_same]
    intro s _
    by_cases h : s.id = spk
    · refine ⟨fun hne => absurd h hne, fun _ => ?_⟩
      simp [visitedFrame, h]
    · exact ⟨fun _ => by simp [h], fun he => absurd he h⟩
  · refine ⟨{ db with sites := db.sites.map (fun s =>
        if s.id == spk then { s with is_completed := true, updated_at := now } else s) },
      by rw [mark_completed, if_pos (any_id_eq_true_of_site hs)], rfl, rfl, ?_⟩
    rw [List.forall₂_map_right_iff, List.forall₂_same]
    intro s _
    by_cases h : s.id = spk
    · refine ⟨fun hne => absurd h hne, fun _ => ?_⟩
      simp [completedFrame, h]
    · exact ⟨fun _ => by simp [h], fun he => absurd he h⟩
  · refine ⟨{ db with applications := db.applications.map (fun a =>
        if a.id == apk then { a with is_archived := true } else a) },
      by rw [archive_application, if_pos (any_id_eq_true_of_app ha)], rfl, rfl, ?_⟩
    rw [List.forall₂_map_right_iff, List.forall₂_same]
    intro a _
    by_cases h : a.id = apk
    · refine ⟨fun hne => absurd h hne, fun _ => ?_⟩
      simp [archiveFrame, h]
    · exact ⟨fun _ => by simp [h], fun he => absurd he h⟩
  · refine ⟨{ db with applications := db.applications.map (fun a =>
        if a.id == apk then { a with is_archived := false } else a) },
      by rw [unarchive_application, if_pos (any_id_eq_true_of_app ha)], rfl, rfl, ?_⟩
    rw [List.forall₂_map_right_iff, List.forall₂_same]
    intro a _
    by_cases h : a.id = apk
    · refine ⟨fun hne => absurd h hne, fun _ => ?_⟩
      simp [archiveFrame, h]
    · exact ⟨fun _ => by simp [h], fun he => absurd he h⟩

/-- C8: `mark_visited` is idempotent — on an existing site id the call
succeeds, and repeating it on the resulting store succeeds with the
same acknowledgement and returns the very same store (final state
`visited = true`), not an error. -/
theorem mark_visited_idempotent (db : Database) (pk now : Nat)
    (h : ∃ s ∈ db.sites, s.id = pk) :
    ∃ db1, mark_visited db pk now = .ok (db1, "marked as visited") ∧
      mark_visited db1 pk now = .ok (db1, "marked as visited") := by
  obtain ⟨s, hmem, hid⟩ := h
  refine ⟨{ db with sites := db.sites.map (fun x =>
      if x.id == pk then { x with visited := true, updated_at := now } else x) },
    by rw [mark_visited, if_pos (any_id_eq_true_of_site ⟨s, hmem, hid⟩)], ?_⟩
  have hmem1 : (∃ x ∈ (db.sites.map (fun x =>
      if x.id == pk then { x with visited := true, updated_at := now } else x)),
      x.id = pk) := by
    refine ⟨if s.id == pk then { s with visited := true, updated_at := now } else s,
      List.mem_map_of_mem _ hmem, ?_⟩
    simp [hid]
  rw [mark_visited, if_pos (any_id_eq_true_of_site hmem1)]
  have hmap : (db.sites.map (fun x =>
        if x.id == pk then { x with visited := true, updated_at := now } else x)).map
        (fun x => if x.id == pk then { x with visited := true, updated_at := now } else x)
      = db.sites.map (fun x =>
        if x.id == pk then { x with visited := true, updated_at := now } else x) := by
    rw [List.map_map]
    apply List.map_congr_left
    intro x _
    by_cases hx : x.id = pk
    · simp [hx]
    · simp [hx]
  simp only [Function.comp] at hmap ⊢
  rw [hmap]

/-- C9: every transition applied to an id that matches no record of its
table fails with `notFound`; the error result carries no store, so in
this state-passing model the whole record set is left untouched (no
partial application). -/
theorem transitions_notFound (db : Database) (pk now : Nat)
    (hs : ∀ s ∈ db.sites, s.id ≠ pk) (ha : ∀ a ∈ db.applications, a.id ≠ pk) :
    mark_visited db pk now = .error .notFound
      ∧ mark_completed db pk now = .error .notFound
      ∧ archive_application db pk = .error .notFound
      ∧ unarchive_application db pk = .error .notFound := by
  have hcs : db.sites.any (fun s => s.id == pk) = false := by
    rw [List.any_eq_false]
    intro s hmem
    simpa using hs s hmem
  have hca : db.applications.any (fun a => a.id == pk) = false := by
    rw [List.any_eq_false]
    intro a hmem
    simpa using ha a hmem
  refine ⟨?_, ?_, ?_, ?_⟩
  · rw [mark_visited, if_neg (by rw [hcs]; exact Bool.false_ne_true)]
  · rw [mark_completed, if_neg (by rw [hcs]; exact Bool.false_ne_true)]
  · rw [archive_application, if_neg (by rw [hca]; exact Bool.false_ne_true)]
  · rw [unarchive_application, if_neg (by rw [hca]; exact Bool.false_ne_true)]

/-! ## Creating an application (`serializers.py` + `models.py`) -/

/-- Writable payload of `JobApplicationSerializer` (`fields =
'__all__'`): every model field except the read-only ones — `id`
(assigned by the store) and `applied_date` (`auto_now_add`). -/
structure ApplicationInput where
  job_site : Nat
  position : String
  company : String
  job_url : String
  description : String
  salary_range : String
  status : String
  notes : String
  is_archived : Bool
deriving Repr, DecidableEq

/-- Creating a `JobApplication`: the serializer's relation field for
`job_site` validates that the referenced site exists and rejects the
request before anything is written when it does not; otherwise the
record is inserted with the fresh id `newId` and `applied_date` set to
the current time `now`.  An error result carries no store, so a failed
create leaves the record set unchanged. -/
def create_application (db : Database) (newId now : Nat) (inp : ApplicationInput) :
    Except ApiError Database :=
  if db.sites.any (fun s => s.id == inp.job_site) then
    .ok { db with applications := db.applications ++
      [{ id := newId, job_site := inp.job_site, position := inp.position,
         company := inp.company, job_url := inp.job_url,
         description := inp.description, salary_range := inp.salary_range,
         status := inp.status, applied_date := now, notes := inp.notes,
         is_archived := inp.is_archived }] }
  else .error .notFound

/-- C6: creating an application whose `job_site` id matches no existing
site fails with the not-found error; no `.ok` store is produced, so no
application record is created and the record set is unchanged. -/
theorem create_application_dangling_site (db : Database) (newId now : Nat)
    (inp : ApplicationInput) (h : ∀ s ∈ db.sites, s.id ≠ inp.job_site) :
    create_application db newId now inp = .error .notFound := by
  have hc : db.sites.any (fun s => s.id == inp.job_site) = false := by
    rw [List.any_eq_false]
    intro s hmem
    simpa using h s hmem
  rw [create_application, if_neg (by rw [hc]; exact Bool.false_ne_true)]

/-! ## Serialized listings (`serializers.py`, `views.py`) -/

/-- The nested `timeline` of one application: the events referencing
it, in the model's default ordering `['-date']` (descending). -/
def timeline_for (db : Database) (appId : Nat) : List ApplicationTimeline :=
  (db.timeline_events.filter (fun t => t.application == appId)).mergeSort
    (fun t1 t2 => decide (t2.date ≤ t1.date))

/-- Output shape of `JobApplicationSerializer` (`serializers.py` lines
53-67): all model fields plus the nested `timeline` list and the
denormalized `job_site_name` (`source='job_site.name'`). -/
structure SerializedApplication where
  id : Nat
  job_site : Nat
  position : String
  company : String
  job_url : String
  description : String
  salary_range : String
  status : String
  applied_date : Nat
  notes : String
  is_archived : Bool
  timeline : List ApplicationTimeline
  job_site_name : String
deriving Repr, DecidableEq

def serialize_application (db : Database) (a : JobApplication) :
    SerializedApplication :=
  { id := a.id, job_site := a.job_site, position := a.position,
    company := a.company, job_url := a.job_url, description := a.description,
    salary_range := a.salary_range, status := a.status,
    applied_date := a.applied_date, notes := a.notes, is_archived := a.is_archived,
    timeline := timeline_for db a.id,
    job_site_name :=
      ((db.sites.find? (fun s => s.id == a.job_site)).map (fun s => s.name)).getD "" }

/-- `JobApplicationViewSet.timeline` (`views.py` lines 97-110):
`filter(is_archived=False).order_by('-applied_date')`, serialized with
`JobApplicationSerializer`. -/
def list_active_applications (db : Database) : List SerializedApplication :=
  ((db.applications.filter (fun a => !a.is_archived)).mergeSort
      (fun a1 a2 => decide (a2.applied_date ≤ a1.applied_date))).map
    (serialize_application db)

theorem find_site_by_id (sites : List JobSite)
    (hnd : (sites.map (fun s => s.id)).Nodup) (s : JobSite) (hs : s ∈ sites) :
    sites.find? (fun x => x.id == s.id) = some s := by
  induction sites with
  | nil => cases hs
  | cons b t ih =>
    rw [List.map_cons, List.nodup_cons] at hnd
    rcases List.mem_cons.mp hs with heq | hmem
    · subst heq
      rw [List.find?_cons_of_pos _ (by simp)]
    · by_cases hbs : b.id = s.id
      · exact absurd (by rw [hbs]; exact List.mem_map.mpr ⟨s, hmem, rfl⟩) hnd.1
      · rw [List.find?_cons_of_neg _ (by simp [hbs])]
        exact ih hnd.2 hmem

theorem timeline_for_spec (db : Database) (appId : Nat) :
    (timeline_for db appId).Pairwise (fun t1 t2 => t2.date ≤ t1.date)
      ∧ ∀ t : ApplicationTimeline,
          t ∈ timeline_for db appId ↔
            t ∈ db.timeline_events ∧ t.application = appId := by
  constructor
  · have htrans : ∀ (a b c : ApplicationTimeline),
        decide (b.date ≤ a.date) = true → decide (c.date ≤ b.date) = true →
          decide (c.date ≤ a.date) = true := by
      intro a b c hab hbc
      simp only [decide_eq_true_eq] at hab hbc ⊢
      exact le_trans hbc hab
    have htotal : ∀ (a b : ApplicationTimeline),
        (decide (b.date ≤ a.date) || decide (a.date ≤ b.date)) = true := by
      intro a b
      simpa using Nat.le_total b.date a.date
    have hsorted := List.sorted_mergeSort htrans htotal
      (db.timeline_events.filter (fun t => t.application == appId))
    exact hsorted.imp (fun h => by simpa using h)
  · intro t
    rw [timeline_for, List.mem_mergeSort, List.mem_filter]
    simp

/-- C4: `list_active_applications` returns exactly the serializations
of the non-archived applications (every non-archived application is
included, everything returned comes from a non-archived application),
in descending `applied_date` order; each entry carries its timeline
events — exactly those referencing the application, in descending
`date` order — and the name of its owning site. -/
theorem list_active_applications_correct (db : Database)
    (hnd : (db.sites.map (fun s => s.id)).Nodup) :
    (∀ a ∈ db.applications, a.is_archived = false →
        serialize_application db a ∈ list_active_applications db)
      ∧ (∀ e ∈ list_active_applications db,
          ∃ a ∈ db.applications,
            a.is_archived = false ∧ e = serialize_application db a)
      ∧ (list_active_applications db).Pairwise
          (fun e1 e2 => e2.applied_date ≤ e1.applied_date)
      ∧ (∀ e ∈ list_active_applications db,
          e.timeline.Pairwise (fun t1 t2 => t2.date ≤ t1.date)
            ∧ ∀ t : ApplicationTimeline,
                t ∈ e.timeline ↔ t ∈ db.timeline_events ∧ t.application = e.id)
      ∧ (∀ e ∈ list_active_applications db, ∀ s ∈ db.sites,
          s.id = e.job_site → e.job_site_name = s.name) := by
  refine ⟨?_, ?_, ?_, ?_, ?_⟩
  · intro a ha harch
    apply List.mem_map_of_mem
    rw [List.mem_mergeSort, List.mem_filter]
    exact ⟨ha, by simp [harch]⟩
  · intro e he
    simp only [list_active_applications, List.mem_map] at he
    obtain ⟨a, hmem, rfl⟩ := he
    rw [List.mem_mergeSort, List.mem_filter] at hmem
    exact ⟨a, hmem.1, by simpa using hmem.2, rfl⟩
  · have htrans : ∀ (a b c : JobApplication),
        decide (b.applied_date ≤ a.applied_date) = true →
          decide (c.applied_date ≤ b.applied_date) = true →
            decide (c.applied_date ≤ a.applied_date) = true := by
      intro a b c hab hbc
      simp only [decide_eq_true_eq] at hab hbc ⊢
      exact le_trans hbc hab
    have htotal : ∀ (a b : JobApplication),
        (decide (b.applied_date ≤ a.applied_date)
          || decide (a.applied_date ≤ b.applied_date)) = true := by
      intro a b
      simpa using Nat.le_total b.applied_date a.applied_date
    have hsorted := List.sorted_mergeSort htrans htotal
      (db.applications.filter (fun a => !a.is_archived))
    rw [list_active_applications, List.pairwise_map]
    exact hsorted.imp (fun h => by simpa using h)
  · intro e he
    simp only [list_active_applications, List.mem_map] at he
    obtain ⟨a, _, rfl⟩ := he
    exact timeline_for_spec db a.id
  · intro e he s hs hid
    simp only [list_active_applications, List.mem_map] at he
    obtain ⟨a, _, rfl⟩ := he
    have hfind := find_site_by_id db.sites hnd s hs
    show ((db.sites.find? (fun x => x.id == a.job_site)).map (fun x => x.name)).getD ""
      = s.name
    have hj : a.job_site = s.id := hid.symm
    rw [hj, hfind]
    rfl

/-! ## Site serialization (`serializers.py` lines 17-40) -/

/-- Output shape of `JobSiteSerializer`: all `JobSite` model fields
plus the computed `applications_count`
(`SerializerMethodField` / `get_applications_count`). -/
structure SerializedJobSite where
  id : Nat
  name : String
  url : String
  site_type : String
  country : String
  language : String
  work_area : String
  description : String
  is_completed : Bool
  visited : Bool
  created_at : Nat
  updated_at : Nat
  applications_count : Nat
deriving Repr, DecidableEq

/-- `JobSiteSerializer.get_applications_count`:
`obj.applications.count()` — the reverse foreign-key manager counts the
applications whose `job_site` references this site. -/
def serialize_site (db : Database) (s : JobSite) : SerializedJobSite :=
  { id := s.id, name := s.name, url := s.url, site_type := s.site_type,
    country := s.country, language := s.language, work_area := s.work_area,
    description := s.description, is_completed := s.is_completed,
    visited := s.visited, created_at := s.created_at, updated_at := s.updated_at,
    applications_count := db.applications.countP (fun a => a.job_site == s.id) }

/-- C10: the serialized representation of a site carries every declared
field of the site unchanged, and an `applications_count` equal to the
number of applications whose `job_site` reference is that site. -/
theorem serialize_site_correct (db : Database) (s : JobSite) :
    (serialize_site db s).applications_count
        = (db.applications.filter (fun a => decide (a.job_site = s.id))).length
      ∧ (serialize_site db s).id = s.id ∧ (serialize_site db s).name = s.name
      ∧ (serialize_site db s).url = s.url
      ∧ (serialize_site db s).site_type = s.site_type
      ∧ (serialize_site db s).country = s.country
      ∧ (serialize_site db s).language = s.language
      ∧ (serialize_site db s).work_area = s.work_area
      ∧ (serialize_site db s).description = s.description
      ∧ (serialize_site db s).is_completed = s.is_completed
      ∧ (serialize_site db s).visited = s.visited
      ∧ (serialize_site db s).created_at = s.created_at
      ∧ (serialize_site db s).updated_at = s.updated_at := by
  refine ⟨?_, rfl, rfl, rfl, rfl, rfl, rfl, rfl, rfl, rfl, rfl, rfl, rfl⟩
  show db.applications.countP (fun a => a.job_site == s.id) = _
  rw [List.countP_eq_length_filter]
  have : (fun a : JobApplication => a.job_site == s.id)
      = (fun a : JobApplication => decide (a.job_site = s.id)) := by
    funext a
    by_cases h : a.job_site = s.id <;> simp [h]
  rw [this]

/-! ## Updating a timeline event (`views.py` lines 167-176)

`ApplicationTimelineViewSet` subclasses `viewsets.ModelViewSet` and is
registered on the default router (`urls.py`), so the full CRUD surface
is exposed for timeline events — including `PUT`/`PATCH` on
`/timeline/{pk}/`.  The writable fields are those of
`ApplicationTimelineSerializer` (`fields = '__all__'`); `date` is
`auto_now_add=True`, hence non-editable on the model and mapped to a
read-only serializer field, so an update never writes it. -/

/-- Writable update payload for a timeline event: every field except
the read-only `id` and `date`. -/
structure TimelineEventInput where
  application : Nat
  event_type : String
  title : String
  description : String
deriving Repr, DecidableEq

/-- The update operation generated for `ApplicationTimelineViewSet`:
look up the record by pk (404 when absent) and overwrite the writable
fields; `date` (read-only) is untouched. -/
def update_timeline_event (db : Database) (pk : Nat) (inp : TimelineEventInput) :
    Except ApiError Database :=
  if db.timeline_events.any (fun t => t.id == pk) then
    .ok { db with timeline_events := db.timeline_events.map (fun t =>
      if t.id == pk then
        { t with application := inp.application, event_type := inp.event_type,
                 title := inp.title, description := inp.description }
      else t) }
  else .error .notFound

/-! ## Concrete sample store (the scenario of the design document) -/

def siteW : JobSite :=
  { id := 1, name := "Acme Boards", url := "https://acme.example",
    site_type := "job_board", country := "US", language := "en",
    work_area := "tech", description := "", is_completed := false,
    visited := false, created_at := 0, updated_at := 0 }

def appW : JobApplication :=
  { id := 1, job_site := 1, position := "Backend Engineer",
    company := "Acme Inc", job_url := "", description := "",
    salary_range := "", status := "applied", applied_date := 2, notes := "",
    is_archived := false }

def eventW : ApplicationTimeline :=
  { id := 1, application := 1, event_type := "applied",
    title := "Application Sent", description := "", date := 3 }

def dbW : Database :=
  { sites := [siteW], applications := [appW], timeline_events := [eventW] }

def inpW : TimelineEventInput :=
  { application := 1, event_type := "applied", title := "Edited title",
    description := "" }

/-- `dbW` after updating event 1 with `inpW`. -/
def dbWupd : Database :=
  { sites := [siteW], applications := [appW],
    timeline_events := [{ id := 1, application := 1, event_type := "applied",
                          title := "Edited title", description := "", date := 3 }] }

/-- C5 counterexample: the system does expose an update operation for
timeline events, and it mutates a stored record — here the `title` of
event 1 changes, so the store after the call differs from the store
before it.  This refutes, at a concrete input, the claim that no field
of a created `TimelineEvent` is ever mutated. -/
theorem update_timeline_event_mutates :
    update_timeline_event dbW 1 inpW = .ok dbWupd ∧ dbWupd ≠ dbW := by
  constructor
  · rfl
  · decide

/-- C5 as amended: updates to timeline events exist (full `ModelViewSet`
CRUD) and may mutate the writable fields, but a successful update
leaves the other two tables untouched and preserves, per record, the
read-only `date` field set at creation (together with the id). -/
theorem update_timeline_event_preserves_date (db : Database) (pk : Nat)
    (inp : TimelineEventInput) (db2 : Database)
    (h : update_timeline_event db pk inp = .ok db2) :
    db2.sites = db.sites ∧ db2.applications = db.applications
      ∧ db2.timeline_events.map (fun t => (t.id, t.date))
          = db.timeline_events.map (fun t => (t.id, t.date)) := by
  rw [update_timeline_event] at h
  split at h
  · injection h with h2
    subst h2
    refine ⟨rfl, rfl, ?_⟩
    rw [List.map_map]
    apply List.map_congr_left
    intro t _
    by_cases ht : t.id = pk
    · simp [ht]
    · simp [ht]
  · exact Except.noConfusion h

/-- C5 witness: the date-preservation theorem instantiated on the
sample store. -/
theorem update_timeline_event_preserves_date_witness :
    dbWupd.timeline_events.map (fun t => (t.id, t.date))
      = dbW.timeline_events.map (fun t => (t.id, t.date)) :=
  (update_timeline_event_preserves_date dbW 1 inpW dbWupd (by rfl)).2.2

/-! ## Witnesses: the remaining theorems instantiated on the sample store -/

/-- C4 witness. -/
theorem list_active_applications_correct_witness :
    serialize_application dbW appW ∈ list_active_applications dbW := by
  have h := list_active_applications_correct dbW (by decide)
  exact h.1 appW (by decide) (by decide)

/-- C6 witness: creating an application against the absent site id 99
fails with not-found. -/
theorem create_application_dangling_site_witness :
    create_application dbW 2 9
        { job_site := 99, position := "Dev", company := "Nowhere",
          job_url := "", description := "", salary_range := "",
          status := "applied", notes := "", is_archived := false }
      = .error .notFound :=
  create_application_dangling_site dbW 2 9 _ (by decide)

/-- C7 witness: the frame theorem instantiated on the sample store. -/
theorem transitions_frame_witness :
    (∃ db1, mark_visited dbW 1 5 = .ok (db1, "marked as visited"))
      ∧ (∃ db3, archive_application dbW 1 = .ok (db3, "archived")) := by
  obtain ⟨⟨db1, h1, _⟩, _, ⟨db3, h3, _⟩, _⟩ :=
    transitions_frame dbW 1 1 5 (by decide) (by decide)
  exact ⟨⟨db1, h1⟩, ⟨db3, h3⟩⟩

/-- C8 witness. -/
theorem mark_visited_idempotent_witness :
    ∃ db1, mark_visited dbW 1 5 = .ok (db1, "marked as visited") ∧
      mark_visited db1 1 5 = .ok (db1, "marked as visited") :=
  mark_visited_idempotent dbW 1 5 (by decide)

/-- C9 witness: every transition on the absent id 99 fails with
not-found. -/
theorem transitions_notFound_witness :
    mark_visited dbW 99 0 = .error .notFound
      ∧ mark_completed dbW 99 0 = .error .notFound
      ∧ archive_application dbW 99 = .error .notFound
      ∧ unarchive_application dbW 99 = .error .notFound :=
  transitions_notFound dbW 99 0 (by decide) (by decide)

end JobTracker
